import Mathlib

/-
Verification of the streaming response ingestion engine of the RagModel
front-end (Angular).  The subsystems embedded here, translated from the
TypeScript source:

  * Token Sanitizer   — cleanToken / cleanFinalResponse
                        (src/unnamed/part_009, lines 217-266)
  * Frame Decoder     — the carry-over line buffer loop shared verbatim by
                        all streaming-service variants
                        (src/src/app/services/streaming.service.ts 69-99,
                         src/unnamed/part_009 90-119)
  * Chat message accumulator, two variants:
      ChatSvc  — src/src/app/services/chat.service.ts
      ChatCfg  — the chat service bundled in src/src/app/app.config.ts
                 (the variant used by src/unnamed/part_009)
  * Stream session event handlers, three variants:
      StreamA  — src/src/app/services/streaming.service.ts
      StreamB  — src/unnamed/part_009
      StreamC  — src/unnamed/part_008 (second half)

Text is modelled as `List Char` (`Str`); machine strings of the source map
to these lists, so every operation below is executable and decidable.
-/

/-- Character-list model of a JavaScript string. -/
abbrev Str := List Char

/-- Coerces a Lean string literal to the `List Char` model. -/
def str (s : String) : Str := s.data

/-- Whitespace recognised by JavaScript `String.prototype.trim` restricted to
the ASCII whitespace characters (space, tab, line feed, carriage return,
vertical tab, form feed); the exotic Unicode whitespace JS also trims never
occurs in the protocol text modelled here. -/
def isJsWs (c : Char) : Bool :=
  c == ' ' || c == '\t' || c == '\n' || c == '\r' ||
  c == Char.ofNat 11 || c == Char.ofNat 12

/-- Model of JavaScript `s.trim()`: drop whitespace at both ends. -/
def trimChars (xs : Str) : Str :=
  ((xs.dropWhile isJsWs).reverse.dropWhile isJsWs).reverse

/-- Translates the STOP_TOKENS set of src/unnamed/part_009 lines 21-31, in
its insertion order (the order a JS `Set` iterates in). -/
def STOP_TOKENS : List Str :=
  [str "<|im_end|>", str "<|endoftext|>", str "<|im_start|>", str "</s>",
   str "<s>", str "[PAD]", str "<pad>", str "<eos>", str "<|end|>"]

/-- Removes every non-overlapping occurrence of `stop` from the text,
scanning left to right: the semantics of JS `result.split(stop).join('')`.
The `Nat` argument is recursion fuel; every call site passes the length of
the text, which suffices because each step consumes at least one character. -/
def removeOccAux (stop : Str) : Nat → Str → Str
  | _, [] => []
  | 0, xs => xs
  | fuel + 1, c :: cs =>
    if stop ≠ [] ∧ stop.isPrefixOf (c :: cs) then
      removeOccAux stop fuel ((c :: cs).drop stop.length)
    else
      c :: removeOccAux stop fuel cs

/-- Model of `text.split(stop).join('')`. -/
def removeOcc (stop xs : Str) : Str := removeOccAux stop xs.length xs

/-- Translates the stop-token removal loop (part_009 lines 224-227 and
250-253): fold the removal over STOP_TOKENS in iteration order. -/
def removeStops (xs : Str) : Str :=
  STOP_TOKENS.foldl (fun acc stop => removeOcc stop acc) xs

/-- Translates `cleanToken` (src/unnamed/part_009, lines 217-230): if the
trimmed token is itself a stop token return the empty string, otherwise
remove every stop-token occurrence from within the token. -/
def cleanToken (token : Str) : Str :=
  if trimChars token ∈ STOP_TOKENS then [] else removeStops token

/-- Word characters for the regex word-boundary `\b`: [A-Za-z0-9_]. -/
def isWordChar (c : Char) : Bool :=
  ('a' ≤ c && c ≤ 'z') || ('A' ≤ c && c ≤ 'Z') || ('0' ≤ c && c ≤ '9') || c == '_'

/-- Alternatives of the language-marker regex `/(zh|en|el|think|no_think)\b`
of part_009 line 256, in the pattern's alternation order. -/
def LANG_CODES : List Str :=
  [str "zh", str "en", str "el", str "think", str "no_think"]

/-- Word-boundary test after a matched language code: the next character, if
any, is not a word character. -/
def boundaryOk : Str → Bool
  | [] => true
  | c :: _ => !(isWordChar c)

/-- Match of the language-marker regex immediately after a '/': the length of
the first alternation code that is a prefix of `xs` and is followed by a word
boundary.  The five codes are pairwise distinguished by their first two
characters, so at most one can match at a position and this equals the JS
regex's backtracking alternation. -/
def langMatchAt (xs : Str) : Option Nat :=
  LANG_CODES.findSome? fun code =>
    if code.isPrefixOf xs ∧ boundaryOk (xs.drop code.length) then
      some code.length
    else none

/-- Translates `result.replace(/\/(zh|en|el|think|no_think)\b/g, '')`
(part_009 line 256) as a left-to-right scan; on a match the scanner resumes
after the matched text, exactly as a global regex replace does.  Fuel as in
`removeOccAux`. -/
def stripLangTagsAux : Nat → Str → Str
  | _, [] => []
  | 0, xs => xs
  | fuel + 1, c :: cs =>
    if c = '/' then
      match langMatchAt cs with
      | some k => stripLangTagsAux fuel (cs.drop k)
      | none => c :: stripLangTagsAux fuel cs
    else c :: stripLangTagsAux fuel cs

/-- Global language-marker removal. -/
def stripLangTags (xs : Str) : Str := stripLangTagsAux xs.length xs

/-- Match of the regex `<\|[^|]+\|>` at the head of `xs`: `<|`, a non-empty
run of non-'|' characters, then `|>`.  Returns the total match length.  The
greedy `[^|]+` cannot backtrack productively (shortening the run makes `\|`
face a non-'|' character), so the maximal run is the only candidate. -/
def angleMatchAt (xs : Str) : Option Nat :=
  match xs with
  | '<' :: '|' :: rest =>
    let run := rest.takeWhile (fun c => c ≠ '|')
    if run ≠ [] ∧ (str "|>").isPrefixOf (rest.drop run.length) then
      some (2 + run.length + 2)
    else none
  | _ => none

/-- Translates `result.replace(/<\|[^|]+\|>/g, '')` (part_009 line 259). -/
def stripAngleTagsAux : Nat → Str → Str
  | _, [] => []
  | 0, xs => xs
  | fuel + 1, c :: cs =>
    match angleMatchAt (c :: cs) with
    | some k => stripAngleTagsAux fuel ((c :: cs).drop k)
    | none => c :: stripAngleTagsAux fuel cs

/-- Global `<|...|>` tag removal. -/
def stripAngleTags (xs : Str) : Str := stripAngleTagsAux xs.length xs

/-- Translates `result.replace(/\n{3,}/g, '\n\n')` (part_009 line 262): a
maximal run of three or more newlines becomes exactly two. -/
def collapseNlAux : Nat → Str → Str
  | _, [] => []
  | 0, xs => xs
  | fuel + 1, c :: cs =>
    if c = '\n' then
      (if 3 ≤ ((c :: cs).takeWhile (fun d => d == '\n')).length then ['\n', '\n']
       else (c :: cs).takeWhile (fun d => d == '\n')) ++
        collapseNlAux fuel ((c :: cs).dropWhile (fun d => d == '\n'))
    else c :: collapseNlAux fuel cs

/-- Global newline-run collapsing. -/
def collapseNl (xs : Str) : Str := collapseNlAux xs.length xs

/-- Translates `cleanFinalResponse` (src/unnamed/part_009, lines 247-266):
remove stop tokens, strip language markers, strip remaining `<|...|>` tags,
collapse newline runs, and trim. -/
def cleanFinalResponse (content : Str) : Str :=
  trimChars (collapseNl (stripAngleTags (stripLangTags (removeStops content))))

/-- Scanner mirror of `stripLangTags` that only reports whether the
language-marker regex matches anywhere in the text. -/
def hasLangTag : Str → Bool
  | [] => false
  | c :: cs =>
    if c = '/' ∧ (langMatchAt cs).isSome then true else hasLangTag cs

/-- Scanner mirror of `stripAngleTags` that only reports whether the
`<\|[^|]+\|>` regex matches anywhere in the text. -/
def hasAngleTag : Str → Bool
  | [] => false
  | c :: cs =>
    if (angleMatchAt (c :: cs)).isSome then true else hasAngleTag cs

/-- Translates the StreamEvent interface (src/src/app/models/chat.ts 81-86,
src/unnamed/part_004 129-134): the decoded protocol event, a type tag and a
text payload.  The optional `metadata` field is opaque and never read by the
streaming code, so it is omitted. -/
structure StreamEvent where
  type : Str
  data : Str
deriving DecidableEq, Repr

/-- Insignificant JSON whitespace. -/
def isJsonWs (c : Char) : Bool :=
  c == ' ' || c == '\t' || c == '\n' || c == '\r'

/-- Skips insignificant JSON whitespace. -/
def skipWs (xs : Str) : Str := xs.dropWhile isJsonWs

/-- Parses the body of a JSON string literal, positioned just after the
opening quote; returns the decoded content and the remainder after the
closing quote.  Supports the escapes the protocol text can contain
(`\" \\ \/ \n \t \r`); fuel as in `removeOccAux`. -/
def parseStringLitAux : Nat → Str → Option (Str × Str)
  | _, [] => none
  | 0, _ => none
  | fuel + 1, c :: cs =>
    if c = '"' then some ([], cs)
    else if c = '\\' then
      match cs with
      | [] => none
      | e :: cs2 =>
        let dec : Option Char :=
          if e = '"' then some '"'
          else if e = '\\' then some '\\'
          else if e = '/' then some '/'
          else if e = 'n' then some '\n'
          else if e = 't' then some '\t'
          else if e = 'r' then some '\r'
          else none
        match dec with
        | some d =>
          match parseStringLitAux fuel cs2 with
          | some (s, rest) => some (d :: s, rest)
          | none => none
        | none => none
    else
      match parseStringLitAux fuel cs with
      | some (s, rest) => some (c :: s, rest)
      | none => none

/-- Parses a JSON string literal including its opening quote. -/
def parseStringLit (xs : Str) : Option (Str × Str) :=
  match xs with
  | '"' :: rest => parseStringLitAux rest.length rest
  | _ => none

/-- Parses the members of a JSON object after the opening brace: one or more
`"key": "value"` pairs separated by commas, through the closing brace.
Returns the pairs and the remainder after the brace. -/
def parsePairsAux : Nat → Str → Option (List (Str × Str) × Str)
  | 0, _ => none
  | fuel + 1, xs =>
    match parseStringLit (skipWs xs) with
    | none => none
    | some (key, r1) =>
      match skipWs r1 with
      | ':' :: r2 =>
        match parseStringLit (skipWs r2) with
        | none => none
        | some (val, r3) =>
          match skipWs r3 with
          | ',' :: r4 =>
            match parsePairsAux fuel r4 with
            | some (ps, rest) => some ((key, val) :: ps, rest)
            | none => none
          | '}' :: r4 => some ([(key, val)], r4)
          | _ => none
      | _ => none

/-- Models the `JSON.parse` builtin on the protocol's event frames (spec §6):
a JSON object literal whose members are string-valued, surrounded by optional
whitespace.  `none` models a thrown SyntaxError.  Shapes outside this
fragment (numbers, arrays, nested objects) do not occur in the frames the
theorems exercise. -/
def jsonParseObject (xs : Str) : Option (List (Str × Str)) :=
  match skipWs xs with
  | '{' :: r =>
    match skipWs r with
    | '}' :: r2 => if skipWs r2 = [] then some [] else none
    | _ =>
      match parsePairsAux r.length r with
      | some (ps, rest) => if skipWs rest = [] then some ps else none
      | none => none
  | _ => none

/-- Reads a field of a parsed JSON object; with duplicate keys the last wins,
as in `JSON.parse`.  A missing field reads as the empty string, modelling the
`undefined` the TypeScript cast would produce. -/
def lookupField (ps : List (Str × Str)) (k : Str) : Str :=
  match (ps.filter (fun p => p.1 = k)).getLast? with
  | some p => p.2
  | none => []

/-- Models `JSON.parse(jsonStr)` cast to `StreamEvent` (streaming.service.ts
line 90, part_009 line 111). -/
def jsonParseEvent (xs : Str) : Option StreamEvent :=
  match jsonParseObject xs with
  | some ps => some ⟨lookupField ps (str "type"), lookupField ps (str "data")⟩
  | none => none

/-- Model of JS `buffer.split('\n')`: never empty, the last element is the
fragment after the final newline. -/
def splitNl : Str → List Str
  | [] => [[]]
  | c :: cs =>
    if c = '\n' then [] :: splitNl cs
    else
      match splitNl cs with
      | [] => [[c]]
      | l :: ls => (c :: l) :: ls

/-- Translates the per-line handling of the decoder loop (streaming.service.ts
85-98, part_009 106-118): a line must carry the `"data: "` prefix; the
remainder is trimmed; an empty remainder is skipped; a remainder that parses
as JSON yields one event; a parse failure is only logged (`console.warn`) and
yields nothing. -/
def lineToEvents (line : Str) : List StreamEvent :=
  if (str "data: ").isPrefixOf line then
    let jsonStr := trimChars (line.drop 6)
    if jsonStr ≠ [] then
      match jsonParseEvent jsonStr with
      | some ev => [ev]
      | none => []
    else []
  else []

/-- Translates one iteration of the decoder loop (streaming.service.ts 79-98):
append the chunk to the carry-over buffer, split on newline, hold back the
last fragment as the new buffer (`buffer = lines.pop() || ''`), and emit the
events of every complete line. -/
def processChunk (buf chunk : Str) : List StreamEvent × Str :=
  ((((splitNl (buf ++ chunk)).dropLast).map lineToEvents).flatten,
   (splitNl (buf ++ chunk)).getLastD [])

/-- Runs the decoder loop over a chunk sequence starting from a carry-over
buffer, concatenating the emitted events. -/
def runDecoderFrom (buf : Str) : List Str → List StreamEvent
  | [] => []
  | ch :: rest =>
    (processChunk buf ch).1 ++ runDecoderFrom (processChunk buf ch).2 rest

/-- Runs the decoder loop from the initial empty buffer (`let buffer = ''`);
any leftover unterminated fragment at end of input is discarded, as in the
source. -/
def runDecoder (chunks : List Str) : List StreamEvent :=
  runDecoderFrom [] chunks

/-- Events of all complete (newline-terminated) lines of a whole stream. -/
def completeEvents (xs : Str) : List StreamEvent :=
  (((splitNl xs).dropLast).map lineToEvents).flatten

/-- Translates the ChatMessage interface (src/src/app/models/chat.ts 44-64).
Optional TypeScript fields are modelled with their JS-falsy behaviour:
absent booleans read as `false`, an absent `thinking` reads as the empty
string (the code always guards it with `|| ''`), absent numbers as `none`.
The `id` and `attachedFiles` fields are never read or written by the
streaming code and are omitted.  `generatedFile` keeps the parsed JSON
object of a `file_generated` payload. -/
structure ChatMessage where
  role : Str
  content : Str
  timestamp : Str
  isStreaming : Bool := false
  thinking : Str := []
  thinkingExpanded : Bool := false
  thinkingInProgress : Bool := false
  thinkingDuration : Option Nat := none
  generatedFile : Option (List (Str × Str)) := none
deriving DecidableEq, Repr

namespace ChatSvc

/-- Translates `addUserMessage` (src/src/app/services/chat.service.ts
153-160); `now` models `new Date().toISOString()`. -/
def addUserMessage (msgs : List ChatMessage) (content now : Str) : List ChatMessage :=
  msgs ++ [{ role := str "user", content := content, timestamp := now }]

/-- Translates `startStreamingMessage` (chat.service.ts 165-176). -/
def startStreamingMessage (msgs : List ChatMessage) (now : Str) : List ChatMessage :=
  msgs ++ [{ role := str "assistant", content := [], timestamp := now,
             isStreaming := true, thinkingInProgress := false,
             thinkingExpanded := false, thinking := [] }]

/-- Translates `appendToStreamingMessage` (chat.service.ts 181-193): copy the
list and, when the last message is streaming, replace it with a copy whose
content has the token appended. -/
def appendToStreamingMessage (msgs : List ChatMessage) (token : Str) : List ChatMessage :=
  match msgs.getLast? with
  | some last =>
    if last.isStreaming then
      msgs.dropLast ++ [{ last with content := last.content ++ token }]
    else msgs
  | none => msgs

/-- Translates `appendToStreamingThinking` (chat.service.ts 198-210);
`(thinking || '') + token` is thinking-concatenation in the model, where an
absent `thinking` is the empty string. -/
def appendToStreamingThinking (msgs : List ChatMessage) (token : Str) : List ChatMessage :=
  match msgs.getLast? with
  | some last =>
    if last.isStreaming then
      msgs.dropLast ++ [{ last with thinking := last.thinking ++ token }]
    else msgs
  | none => msgs

/-- Translates `updateStreamingThinking` (chat.service.ts 215-229):
`thinkingExpanded` is forced true only when entering the thinking state, and
`duration ?? old` keeps the old duration when none is supplied. -/
def updateStreamingThinking (msgs : List ChatMessage) (inProgress : Bool)
    (duration : Option Nat) : List ChatMessage :=
  match msgs.getLast? with
  | some last =>
    if last.isStreaming then
      msgs.dropLast ++
        [{ last with
             thinkingInProgress := inProgress,
             thinkingExpanded := if inProgress then true else last.thinkingExpanded,
             thinkingDuration :=
               match duration with
               | some d => some d
               | none => last.thinkingDuration }]
    else msgs
  | none => msgs

/-- Translates `finalizeStreamingMessage` (chat.service.ts 234-255), its
message-list update only; the chat-list side effect (`updateChatInList`) is
modelled at the session level.  `thinking || old` keeps the old thinking when
the argument is absent or empty (JS falsy). -/
def finalizeStreamingMessage (msgs : List ChatMessage) (thinking : Option Str)
    (thinkingDuration : Option Nat) : List ChatMessage :=
  match msgs.getLast? with
  | some last =>
    if last.isStreaming then
      msgs.dropLast ++
        [{ last with
             isStreaming := false,
             thinkingInProgress := false,
             thinking :=
               match thinking with
               | some t => if t = [] then last.thinking else t
               | none => last.thinking,
             thinkingDuration :=
               match thinkingDuration with
               | some d => some d
               | none => last.thinkingDuration,
             thinkingExpanded := false }]
    else msgs
  | none => msgs

/-- Translates `removeStreamingMessage` (chat.service.ts 260-262): drop every
message still marked streaming. -/
def removeStreamingMessage (msgs : List ChatMessage) : List ChatMessage :=
  msgs.filter (fun m => !m.isStreaming)

end ChatSvc

namespace ChatCfg

/-- Translates `addUserMessage` of the app.config.ts chat service (lines
169-177); the optional `attachedFiles` argument is never passed by the
streaming caller and is omitted. -/
def addUserMessage (msgs : List ChatMessage) (content now : Str) : List ChatMessage :=
  msgs ++ [{ role := str "user", content := content, timestamp := now }]

/-- Translates `createStreamingMessage` (app.config.ts 179-190). -/
def createStreamingMessage (msgs : List ChatMessage) (now : Str) : List ChatMessage :=
  msgs ++ [{ role := str "assistant", content := [], timestamp := now,
             isStreaming := true, thinking := [], thinkingExpanded := true,
             thinkingInProgress := false }]

/-- Translates `appendToStreamingMessage` (app.config.ts 192-201). -/
def appendToStreamingMessage (msgs : List ChatMessage) (token : Str) : List ChatMessage :=
  match msgs.getLast? with
  | some last =>
    if last.isStreaming then
      msgs.dropLast ++ [{ last with content := last.content ++ token }]
    else msgs
  | none => msgs

/-- Translates `updateStreamingThinking` (app.config.ts 203-213): sets the
in-progress flag and always expands. -/
def updateStreamingThinking (msgs : List ChatMessage) (inProgress : Bool) : List ChatMessage :=
  match msgs.getLast? with
  | some last =>
    if last.isStreaming then
      msgs.dropLast ++ [{ last with thinkingInProgress := inProgress,
                                    thinkingExpanded := true }]
    else msgs
  | none => msgs

/-- Translates `appendToStreamingThinking` (app.config.ts 215-224). -/
def appendToStreamingThinking (msgs : List ChatMessage) (token : Str) : List ChatMessage :=
  match msgs.getLast? with
  | some last =>
    if last.isStreaming then
      msgs.dropLast ++ [{ last with thinking := last.thinking ++ token }]
    else msgs
  | none => msgs

/-- Translates `finalizeStreamingThinking` (app.config.ts 226-238). -/
def finalizeStreamingThinking (msgs : List ChatMessage) (fullThinking : Str)
    (duration : Nat) : List ChatMessage :=
  match msgs.getLast? with
  | some last =>
    if last.isStreaming then
      msgs.dropLast ++ [{ last with thinking := fullThinking,
                                    thinkingDuration := some duration,
                                    thinkingInProgress := false,
                                    thinkingExpanded := false }]
    else msgs
  | none => msgs

/-- Translates `finalizeStreamingMessage` (app.config.ts 240-252): close the
streaming message, overwriting its content when a cleaned content is given. -/
def finalizeStreamingMessage (msgs : List ChatMessage) (cleanedContent : Option Str) :
    List ChatMessage :=
  match msgs.getLast? with
  | some last =>
    if last.isStreaming then
      msgs.dropLast ++
        [{ last with
             isStreaming := false,
             content :=
               match cleanedContent with
               | some c => c
               | none => last.content }]
    else msgs
  | none => msgs

/-- Translates `attachGeneratedFile` (app.config.ts 254-263): guarded only by
`last.role === 'assistant'`, not by the streaming flag. -/
def attachGeneratedFile (msgs : List ChatMessage) (fileInfo : List (Str × Str)) :
    List ChatMessage :=
  match msgs.getLast? with
  | some last =>
    if last.role = str "assistant" then
      msgs.dropLast ++ [{ last with generatedFile := some fileInfo }]
    else msgs
  | none => msgs

/-- Translates `removeStreamingMessage` (app.config.ts 265-272): drop the last
message when it is streaming (`msgs.slice(0, -1)`), else keep the list. -/
def removeStreamingMessage (msgs : List ChatMessage) : List ChatMessage :=
  match msgs.getLast? with
  | some last => if last.isStreaming then msgs.dropLast else msgs
  | none => msgs

/-- Translates `getCurrentStreamingMessage` (app.config.ts 274-278). -/
def getCurrentStreamingMessage (msgs : List ChatMessage) : Option ChatMessage :=
  match msgs.getLast? with
  | some last => if last.isStreaming then some last else none
  | none => none

end ChatCfg

namespace StreamA

/-- Session-visible state of the src/src/app/services/streaming.service.ts
variant: the message list plus a count of `chatService.finalizeStreamingMessage`
invocations, which models the finalize (`onFinalized`) callback firing. -/
structure SessionState where
  messages : List ChatMessage
  finalizeCalls : Nat
deriving DecidableEq, Repr

/-- Translates `handleStreamEvent` (streaming.service.ts 120-159): `token`
appends the raw payload, `error` removes the streaming message, every other
case — including `done`, which defers to the post-loop finalize — only logs. -/
def handleStreamEvent (s : SessionState) (ev : StreamEvent) : SessionState :=
  if ev.type = str "token" then
    { s with messages := ChatSvc.appendToStreamingMessage s.messages ev.data }
  else if ev.type = str "error" then
    { s with messages := ChatSvc.removeStreamingMessage s.messages }
  else s

/-- Translates the post-loop finalize (streaming.service.ts 101-102): after
end of input the service unconditionally calls
`chatService.finalizeStreamingMessage()`. -/
def finishStream (s : SessionState) : SessionState :=
  { messages := ChatSvc.finalizeStreamingMessage s.messages none none,
    finalizeCalls := s.finalizeCalls + 1 }

/-- Runs the read loop over a decoded event sequence and then the post-loop
finalize: the event-level behaviour of `sendStreamingMessage` on a stream
that ends normally. -/
def runSession (s : SessionState) (events : List StreamEvent) : SessionState :=
  finishStream (events.foldl handleStreamEvent s)

/-- Controller state of the variant: `abortController` is `true` while a
controller object is held (non-null); `abortCount` counts `.abort()` signals
sent, the externally observable effect of cancellation. -/
structure ControllerState where
  abortController : Bool
  abortCount : Nat
deriving DecidableEq, Repr

/-- Translates `abort` (streaming.service.ts 164-169): signal and null the
controller when one is held, otherwise do nothing. -/
def abort (c : ControllerState) : ControllerState :=
  if c.abortController then
    { abortController := false, abortCount := c.abortCount + 1 }
  else c

/-- Translates the `finally` clause of `sendStreamingMessage`
(streaming.service.ts 112-114): natural completion nulls the controller. -/
def sessionFinally (c : ControllerState) : ControllerState :=
  { c with abortController := false }

end StreamA

namespace StreamB

/-- Session-visible state of the src/unnamed/part_009 variant: the message
list (held by the app.config.ts chat service), the thinking-phase fields of
the streaming service, and a count of `chatService.finalizeStreamingMessage`
invocations modelling the finalize callback. -/
structure SessionState where
  messages : List ChatMessage
  isThinking : Bool
  thinkingStartTime : Option Nat
  currentThinking : List Str
  finalizeCalls : Nat
deriving DecidableEq, Repr

/-- Translates `finalizeMessage` (part_009 235-242): clean and finalize the
current streaming message if one exists, otherwise do nothing. -/
def finalizeMessage (s : SessionState) : SessionState :=
  match ChatCfg.getCurrentStreamingMessage s.messages with
  | some m =>
    { s with
        messages := ChatCfg.finalizeStreamingMessage s.messages
          (some (cleanFinalResponse m.content)),
        finalizeCalls := s.finalizeCalls + 1 }
  | none => s

/-- Translates `handleStreamEvent` (part_009 141-212).  `now` models
`Date.now()`; `Math.round((now - t) / 1000)` is `(now - t + 500) / 1000` in
natural numbers.  JS truthiness of `event.data` is non-emptiness.  The switch
has no default clause, so unknown event types fall through silently. -/
def handleStreamEvent (now : Nat) (s : SessionState) (ev : StreamEvent) : SessionState :=
  if ev.type = str "thinking_start" then
    { s with isThinking := true, thinkingStartTime := some now,
             currentThinking := [],
             messages := ChatCfg.updateStreamingThinking s.messages true }
  else if ev.type = str "thinking_token" then
    if s.isThinking ∧ ev.data ≠ [] then
      { s with currentThinking := s.currentThinking ++ [ev.data],
               messages := ChatCfg.appendToStreamingThinking s.messages ev.data }
    else s
  else if ev.type = str "thinking_end" then
    let duration :=
      match s.thinkingStartTime with
      | some t => (now - t + 500) / 1000
      | none => 0
    { s with isThinking := false,
             messages := ChatCfg.finalizeStreamingThinking s.messages
               (s.currentThinking.flatten) duration }
  else if ev.type = str "token" then
    if ¬ s.isThinking ∧ ev.data ≠ [] then
      let cleanedToken := cleanToken ev.data
      if cleanedToken ≠ [] then
        { s with messages := ChatCfg.appendToStreamingMessage s.messages cleanedToken }
      else s
    else s
  else if ev.type = str "file_generated" then
    if ev.data ≠ [] then
      match jsonParseObject ev.data with
      | some fileInfo =>
        { s with messages := ChatCfg.attachGeneratedFile s.messages fileInfo }
      | none => s
    else s
  else if ev.type = str "done" then
    finalizeMessage s
  else if ev.type = str "error" then
    { s with messages := ChatCfg.removeStreamingMessage s.messages }
  else s

/-- Runs the rest of the read loop from a given state over the remaining
decoded events and then the post-loop `finalizeMessage()` (part_009 122). -/
def runRest (now : Nat) (s : SessionState) (events : List StreamEvent) : SessionState :=
  finalizeMessage (events.foldl (handleStreamEvent now) s)

/-- Controller state of part_009: the abort controller field, a count of
`.abort()` signals, and the thinking fields reset on start. -/
structure ControllerState where
  abortController : Bool
  abortCount : Nat
  isThinking : Bool
  thinkingStartTime : Option Nat
  currentThinking : List Str
deriving DecidableEq, Repr

/-- Translates `cancelStream` (part_009 271-276): abort and null the
controller when one is held, otherwise do nothing. -/
def cancelStream (c : ControllerState) : ControllerState :=
  if c.abortController then
    { c with abortController := false, abortCount := c.abortCount + 1 }
  else c

/-- Translates the `finally` clause of `sendStreamingMessage` (part_009
132-135): natural completion nulls the controller and clears the flag. -/
def sessionFinally (c : ControllerState) : ControllerState :=
  { c with abortController := false, isThinking := false }

/-- Translates the synchronous opening of `sendStreamingMessage` (part_009
41-60): cancel any existing stream, install a fresh abort controller, reset
the thinking state, append the user message, and append the streaming
placeholder. -/
def sendStreamingMessageStart (c : ControllerState) (msgs : List ChatMessage)
    (content now : Str) : ControllerState × List ChatMessage :=
  let c1 := cancelStream c
  let c2 := { c1 with abortController := true, isThinking := false,
                      thinkingStartTime := none, currentThinking := [] }
  (c2, ChatCfg.createStreamingMessage (ChatCfg.addUserMessage msgs content now) now)

/-- Translates the `isStreaming` getter (part_009 281-283). -/
def isStreaming (c : ControllerState) : Bool := c.abortController

end StreamB

namespace StreamC

/-- Session-visible state of the src/unnamed/part_008 variant (second half of
the file).  Its `thinkingStartTime` is a plain number initialised to 0, and 0
is JS-falsy, so it is modelled as a `Nat`.  The chat-service methods it calls
are those of src/src/app/services/chat.service.ts (`ChatSvc`), the variant
that defines all of them. -/
structure SessionState where
  messages : List ChatMessage
  isThinking : Bool
  thinkingStartTime : Nat
  currentThinking : List Str
deriving DecidableEq, Repr

/-- Translates `handleStreamEvent` (part_008 589-656).  The `token` case
falls back to the thinking channel while `isThinking` holds (lines 617-626);
`thinking_end` reports a duration only when the start time is truthy
(non-zero). -/
def handleStreamEvent (now : Nat) (s : SessionState) (ev : StreamEvent) : SessionState :=
  if ev.type = str "thinking_start" then
    { s with isThinking := true, thinkingStartTime := now, currentThinking := [],
             messages := ChatSvc.updateStreamingThinking s.messages true none }
  else if ev.type = str "thinking_token" then
    if s.isThinking ∧ ev.data ≠ [] then
      { s with currentThinking := s.currentThinking ++ [ev.data],
               messages := ChatSvc.appendToStreamingThinking s.messages ev.data }
    else s
  else if ev.type = str "thinking_end" then
    let duration : Option Nat :=
      if s.thinkingStartTime ≠ 0 then some ((now - s.thinkingStartTime + 500) / 1000)
      else none
    { s with isThinking := false,
             messages := ChatSvc.updateStreamingThinking s.messages false duration }
  else if ev.type = str "token" then
    if ¬ s.isThinking then
      { s with messages := ChatSvc.appendToStreamingMessage s.messages ev.data }
    else
      { s with currentThinking := s.currentThinking ++ [ev.data],
               messages := ChatSvc.appendToStreamingThinking s.messages ev.data }
  else if ev.type = str "error" then
    { s with messages := ChatSvc.removeStreamingMessage s.messages }
  else s

end StreamC

/-
Theorems.  Each claim Cn of the specification is settled by the theorem(s)
named cn_*.  Shared helper lemmas come first.
-/

/-- Helper: a removal pass is the identity on text containing no occurrence
of the marker. -/
theorem removeOccAux_id_of_clean (stop : Str) :
    ∀ (fuel : Nat) (xs : Str), xs.length ≤ fuel → ¬ stop <:+: xs →
      removeOccAux stop fuel xs = xs := by
  intro fuel
  induction fuel with
  | zero =>
    intro xs hlen _
    have : xs = [] := List.eq_nil_of_length_eq_zero (Nat.le_zero.mp hlen)
    subst this
    rfl
  | succ n ih =>
    intro xs hlen hno
    cases xs with
    | nil => rfl
    | cons c cs =>
      have hnopre : ¬ (stop ≠ [] ∧ stop.isPrefixOf (c :: cs)) := by
        rintro ⟨-, hpre⟩
        exact hno (List.isPrefixOf_iff_prefix.mp hpre).isInfix
      rw [removeOccAux, if_neg hnopre]
      have htail : ¬ stop <:+: cs := fun h => hno (List.infix_cons h)
      rw [ih cs (Nat.le_of_succ_le_succ hlen) htail]

/-- Helper: `removeOcc` is the identity on marker-free text. -/
theorem removeOcc_id_of_clean (stop xs : Str) (h : ¬ stop <:+: xs) :
    removeOcc stop xs = xs :=
  removeOccAux_id_of_clean stop xs.length xs (Nat.le_refl _) h

/-- Helper: the stop-token removal fold is the identity on text containing no
stop token. -/
theorem removeStops_id_of_clean (xs : Str)
    (h : ∀ s ∈ STOP_TOKENS, ¬ s <:+: xs) : removeStops xs = xs := by
  simp only [removeStops, STOP_TOKENS, List.foldl_cons, List.foldl_nil]
  rw [removeOcc_id_of_clean _ _ (h _ (by decide)),
      removeOcc_id_of_clean _ _ (h _ (by decide)),
      removeOcc_id_of_clean _ _ (h _ (by decide)),
      removeOcc_id_of_clean _ _ (h _ (by decide)),
      removeOcc_id_of_clean _ _ (h _ (by decide)),
      removeOcc_id_of_clean _ _ (h _ (by decide)),
      removeOcc_id_of_clean _ _ (h _ (by decide)),
      removeOcc_id_of_clean _ _ (h _ (by decide)),
      removeOcc_id_of_clean _ _ (h _ (by decide))]

/-- Helper: `cleanToken` is the identity on fully clean text. -/
theorem cleanToken_id_of_clean (y : Str)
    (h1 : ∀ s ∈ STOP_TOKENS, ¬ s <:+: y) (h2 : trimChars y ∉ STOP_TOKENS) :
    cleanToken y = y := by
  rw [cleanToken, if_neg h2, removeStops_id_of_clean y h1]

/-- Helper: the language-marker scan is the identity on text where the
language-marker regex never matches. -/
theorem stripLangTagsAux_id_of_clean :
    ∀ (fuel : Nat) (xs : Str), xs.length ≤ fuel → hasLangTag xs = false →
      stripLangTagsAux fuel xs = xs := by
  intro fuel
  induction fuel with
  | zero =>
    intro xs hlen _
    have : xs = [] := List.eq_nil_of_length_eq_zero (Nat.le_zero.mp hlen)
    subst this
    rfl
  | succ n ih =>
    intro xs hlen hno
    cases xs with
    | nil => rfl
    | cons c cs =>
      rw [hasLangTag] at hno
      by_cases hc : c = '/'
      · have hmatch : ¬ (c = '/' ∧ (langMatchAt cs).isSome) := by
          intro hcontra
          rw [if_pos hcontra] at hno
          exact absurd hno (by decide)
        have hnone : langMatchAt cs = none := by
          cases hm : langMatchAt cs with
          | none => rfl
          | some k => exact absurd ⟨hc, by rw [hm]; rfl⟩ hmatch
        have htail : hasLangTag cs = false := by
          rwa [if_neg hmatch] at hno
        rw [stripLangTagsAux, if_pos hc, hnone]
        rw [ih cs (Nat.le_of_succ_le_succ hlen) htail]
      · have htail : hasLangTag cs = false := by
          rwa [if_neg (fun hcontra => hc hcontra.1)] at hno
        rw [stripLangTagsAux, if_neg hc]
        rw [ih cs (Nat.le_of_succ_le_succ hlen) htail]

/-- Helper: the tag scan is the identity on text where the `<\|[^|]+\|>`
regex never matches. -/
theorem stripAngleTagsAux_id_of_clean :
    ∀ (fuel : Nat) (xs : Str), xs.length ≤ fuel → hasAngleTag xs = false →
      stripAngleTagsAux fuel xs = xs := by
  intro fuel
  induction fuel with
  | zero =>
    intro xs hlen _
    have : xs = [] := List.eq_nil_of_length_eq_zero (Nat.le_zero.mp hlen)
    subst this
    rfl
  | succ n ih =>
    intro xs hlen hno
    cases xs with
    | nil => rfl
    | cons c cs =>
      rw [hasAngleTag] at hno
      have hnone : angleMatchAt (c :: cs) = none := by
        cases hm : angleMatchAt (c :: cs) with
        | none => rfl
        | some k =>
          rw [if_pos (by rw [hm]; rfl)] at hno
          exact absurd hno (by decide)
      have htail : hasAngleTag cs = false := by
        rwa [if_neg (by rw [hnone]; simp)] at hno
      rw [stripAngleTagsAux, hnone]
      rw [ih cs (Nat.le_of_succ_le_succ hlen) htail]

/-- Helper: a list of length three whose members all equal `a` is `[a,a,a]`. -/
theorem eq_triple_of_all {α : Type} (a : α) (l : List α) (hlen : l.length = 3)
    (hall : ∀ x ∈ l, x = a) : l = [a, a, a] := by
  rcases l with - | ⟨x, - | ⟨y, - | ⟨z, - | ⟨w, t⟩⟩⟩⟩ <;> simp_all

/-- Helper: the newline-collapsing scan is the identity on text containing no
run of three newlines. -/
theorem collapseNlAux_id_of_clean :
    ∀ (fuel : Nat) (xs : Str), xs.length ≤ fuel →
      ¬ (str "\n\n\n") <:+: xs → collapseNlAux fuel xs = xs := by
  intro fuel
  induction fuel with
  | zero =>
    intro xs hlen _
    have : xs = [] := List.eq_nil_of_length_eq_zero (Nat.le_zero.mp hlen)
    subst this
    rfl
  | succ n ih =>
    intro xs hlen hno
    cases xs with
    | nil => rfl
    | cons c cs =>
      by_cases hc : c = '\n'
      · have hrunshort : ¬ 3 ≤ ((c :: cs).takeWhile (fun d => d == '\n')).length := by
          intro h3
          apply hno
          have htake : ((c :: cs).takeWhile (fun d => d == '\n')).take 3 = ['\n', '\n', '\n'] := by
            apply eq_triple_of_all
            · rw [List.length_take]
              exact Nat.min_eq_left h3
            · intro x hx
              have hx' : x ∈ (c :: cs).takeWhile (fun d => d == '\n') :=
                List.mem_of_mem_take hx
              have hbeq := List.mem_takeWhile_imp hx'
              simpa using hbeq
          refine List.IsPrefix.isInfix ?_
          rw [show str "\n\n\n" = ['\n', '\n', '\n'] from rfl, ← htake]
          calc ((c :: cs).takeWhile (fun d => d == '\n')).take 3
              <+: (c :: cs).takeWhile (fun d => d == '\n') :=
                ⟨((c :: cs).takeWhile (fun d => d == '\n')).drop 3,
                  List.take_append_drop 3 _⟩
            _ <+: c :: cs :=
                ⟨(c :: cs).dropWhile (fun d => d == '\n'),
                  List.takeWhile_append_dropWhile _ _⟩
        have hrest : ¬ (str "\n\n\n") <:+: (c :: cs).dropWhile (fun d => d == '\n') :=
          fun h => hno (h.trans (List.dropWhile_suffix _).isInfix)
        have hrestlen : ((c :: cs).dropWhile (fun d => d == '\n')).length ≤ n := by
          have hdw : (c :: cs).dropWhile (fun d => d == '\n') = cs.dropWhile (fun d => d == '\n') := by
            rw [List.dropWhile_cons_of_pos (by simp [hc])]
          rw [hdw]
          exact Nat.le_trans (List.dropWhile_suffix _).length_le
            (Nat.le_of_succ_le_succ hlen)
        rw [collapseNlAux, if_pos hc, if_neg hrunshort]
        rw [ih _ hrestlen hrest, List.takeWhile_append_dropWhile]
      · have htail : ¬ (str "\n\n\n") <:+: cs := fun h => hno (List.infix_cons h)
        rw [collapseNlAux, if_neg hc]
        rw [ih cs (Nat.le_of_succ_le_succ hlen) htail]

/-- Helper: `cleanFinalResponse` is the identity on fully clean text: no stop
token, no language-marker match, no `<|...|>` match, no newline triple, and
already trimmed. -/
theorem cleanFinalResponse_id_of_clean (y : Str)
    (h1 : ∀ s ∈ STOP_TOKENS, ¬ s <:+: y)
    (h2 : hasLangTag y = false)
    (h3 : hasAngleTag y = false)
    (h4 : ¬ (str "\n\n\n") <:+: y)
    (h5 : trimChars y = y) :
    cleanFinalResponse y = y := by
  rw [cleanFinalResponse, removeStops_id_of_clean y h1]
  rw [show stripLangTags y = y from
        stripLangTagsAux_id_of_clean y.length y (Nat.le_refl _) h2]
  rw [show stripAngleTags y = y from
        stripAngleTagsAux_id_of_clean y.length y (Nat.le_refl _) h3]
  rw [show collapseNl y = y from
        collapseNlAux_id_of_clean y.length y (Nat.le_refl _) h4]
  exact h5

/-- C1: the claim asserts both sanitizer entry points are idempotent on every
input.  This is false: removing one stop marker can splice together a new
one.  `cleanToken "<|im_<|end|>end|>"` removes the inner `<|end|>` leaving
`<|im_end|>`, which a second pass maps to the empty string; and
`cleanFinalResponse "</<|x|>s>"` removes the `<|x|>` tag leaving `</s>`,
which a second pass removes as a stop token. -/
theorem c1_counterexample :
    cleanToken (cleanToken (str "<|im_<|end|>end|>")) ≠
      cleanToken (str "<|im_<|end|>end|>") ∧
    cleanFinalResponse (cleanFinalResponse (str "</<|x|>s>")) ≠
      cleanFinalResponse (str "</<|x|>s>") := by
  decide

/-- C1 (amended): neither entry point is idempotent in general, because
marker removal can splice a new marker together; each is idempotent exactly
when its first application already yields fully clean output.  If
`cleanToken x` contains no stop token and does not trim to one, a second
`cleanToken` is the identity on it; if `cleanFinalResponse y` contains no
stop token, no language-marker match, no `<|...|>` match, no run of three
newlines, and is already trimmed, a second `cleanFinalResponse` is the
identity on it. -/
theorem c1_amended (x y : Str)
    (hx1 : ∀ s ∈ STOP_TOKENS, ¬ s <:+: cleanToken x)
    (hx2 : trimChars (cleanToken x) ∉ STOP_TOKENS)
    (hy1 : ∀ s ∈ STOP_TOKENS, ¬ s <:+: cleanFinalResponse y)
    (hy2 : hasLangTag (cleanFinalResponse y) = false)
    (hy3 : hasAngleTag (cleanFinalResponse y) = false)
    (hy4 : ¬ (str "\n\n\n") <:+: cleanFinalResponse y)
    (hy5 : trimChars (cleanFinalResponse y) = cleanFinalResponse y) :
    cleanToken (cleanToken x) = cleanToken x ∧
    cleanFinalResponse (cleanFinalResponse y) = cleanFinalResponse y :=
  ⟨cleanToken_id_of_clean (cleanToken x) hx1 hx2,
   cleanFinalResponse_id_of_clean (cleanFinalResponse y) hy1 hy2 hy3 hy4 hy5⟩

/-- C1 witness: the amended idempotence at concrete clean-output inputs. -/
theorem c1_witness :
    cleanToken (cleanToken (str "a <|im_end|> b")) = cleanToken (str "a <|im_end|> b") ∧
    cleanFinalResponse (cleanFinalResponse (str "hello\n\nworld")) =
      cleanFinalResponse (str "hello\n\nworld") :=
  c1_amended (str "a <|im_end|> b") (str "hello\n\nworld")
    (by decide) (by decide) (by decide) (by decide) (by decide) (by decide) (by decide)

/-- Helper: a JS split never yields an empty array. -/
theorem splitNl_ne_nil (xs : Str) : splitNl xs ≠ [] := by
  cases xs with
  | nil => simp [splitNl]
  | cons c cs =>
    rw [splitNl]
    by_cases hc : c = '\n'
    · simp [hc]
    · rw [if_neg hc]
      cases splitNl cs <;> simp

/-- Helper: splitting newline-free text yields that text alone. -/
theorem splitNl_no_nl (xs : Str) (h : '\n' ∉ xs) : splitNl xs = [xs] := by
  induction xs with
  | nil => rfl
  | cons c cs ih =>
    have hc : ¬ c = '\n' := fun hh => h (hh ▸ List.mem_cons_self c cs)
    have htail : '\n' ∉ cs := fun hh => h (List.mem_cons_of_mem c hh)
    rw [splitNl, if_neg hc, ih htail]

/-- Helper: the defaulted last of a cons ignores the head when the tail is
non-empty. -/
theorem getLastD_cons_of_ne_nil {α : Type} (a d : α) (l : List α) (h : l ≠ []) :
    (a :: l).getLastD d = l.getLastD d := by
  cases l with
  | nil => exact absurd rfl h
  | cons b t => rfl

/-- Helper: the held-back final fragment of a split contains no newline. -/
theorem splitNl_getLastD_no_nl (xs : Str) : '\n' ∉ (splitNl xs).getLastD [] := by
  induction xs with
  | nil => simp [splitNl]
  | cons c cs ih =>
    rw [splitNl]
    by_cases hc : c = '\n'
    · rw [if_pos hc, getLastD_cons_of_ne_nil _ _ _ (splitNl_ne_nil cs)]
      exact ih
    · rw [if_neg hc]
      cases hs : splitNl cs with
      | nil => exact absurd hs (splitNl_ne_nil cs)
      | cons l ls =>
        cases ls with
        | nil =>
          rw [hs] at ih
          simp only [List.getLastD]
          intro hmem
          rcases List.mem_cons.mp hmem with h1 | h2
          · exact hc h1.symm
          · exact ih h2
        | cons l1 t =>
          rw [hs] at ih
          rw [getLastD_cons_of_ne_nil _ _ _ (by simp)]
          rw [getLastD_cons_of_ne_nil _ _ _ (by simp)] at ih
          exact ih

/-- Helper: splitting a concatenation equals the complete lines of the left
part followed by the split of the held-back fragment joined to the right
part — the algebra behind the carry-over buffer. -/
theorem splitNl_append (xs ys : Str) :
    splitNl (xs ++ ys) =
      (splitNl xs).dropLast ++ splitNl ((splitNl xs).getLastD [] ++ ys) := by
  induction xs with
  | nil => simp [splitNl]
  | cons c cs ih =>
    by_cases hc : c = '\n'
    · rw [List.cons_append, splitNl, if_pos hc, splitNl, if_pos hc]
      rw [List.dropLast_cons_of_ne_nil (splitNl_ne_nil cs)]
      rw [getLastD_cons_of_ne_nil _ _ _ (splitNl_ne_nil cs)]
      rw [List.cons_append, ih]
    · rw [List.cons_append, splitNl, if_neg hc, splitNl, if_neg hc]
      cases hs : splitNl cs with
      | nil => exact absurd hs (splitNl_ne_nil cs)
      | cons l ls =>
        cases ls with
        | nil =>
          have hcsys : splitNl (cs ++ ys) = splitNl (l ++ ys) := by
            rw [ih, hs]; rfl
          rw [hcsys]
          rw [show ([c :: l] : List Str).getLastD [] = c :: l from rfl]
          rw [show ((c :: l) ++ ys) = c :: (l ++ ys) from rfl]
          rw [splitNl, if_neg hc]
          rfl
        | cons l1 t =>
          rw [ih, hs]
          rw [show (l :: l1 :: t).getLastD [] = (l1 :: t).getLastD [] from rfl]
          rw [show ((c :: l) :: l1 :: t).getLastD [] = (l1 :: t).getLastD [] from rfl]
          rw [List.dropLast_cons₂, List.dropLast_cons₂, List.cons_append, List.cons_append]

/-- Helper: the decoder loop started on any carry-over buffer emits exactly
the events of the complete lines of the buffer followed by the remaining
input. -/
theorem runDecoderFrom_eq (chunks : List Str) :
    ∀ buf : Str, '\n' ∉ buf →
      runDecoderFrom buf chunks = completeEvents (buf ++ chunks.flatten) := by
  induction chunks with
  | nil =>
    intro buf hbuf
    rw [runDecoderFrom, completeEvents]
    rw [List.flatten_nil, List.append_nil, splitNl_no_nl buf hbuf]
    rfl
  | cons ch rest ih =>
    intro buf hbuf
    rw [runDecoderFrom]
    rw [show (processChunk buf ch).2 = (splitNl (buf ++ ch)).getLastD [] from rfl]
    rw [ih _ (splitNl_getLastD_no_nl (buf ++ ch))]
    rw [show (processChunk buf ch).1 = (((splitNl (buf ++ ch)).dropLast).map lineToEvents).flatten from rfl]
    rw [completeEvents, completeEvents]
    rw [List.flatten_cons,
        show buf ++ (ch ++ rest.flatten) = (buf ++ ch) ++ rest.flatten from
          (List.append_assoc buf ch rest.flatten).symm]
    rw [splitNl_append (buf ++ ch) rest.flatten]
    rw [List.dropLast_append_of_ne_nil _ (splitNl_ne_nil _)]
    rw [List.map_append, List.flatten_append]

/-- C5: decoder output is chunk-boundary-independent.  Any two ways of
cutting the same stream into chunks make the carry-over buffer loop emit the
identical sequence of StreamEvents; in particular, for a newline-terminated
stream every split at every byte boundary agrees with feeding the stream
whole. -/
theorem c5_chunk_boundary_independent (cs ds : List Str)
    (h : cs.flatten = ds.flatten) : runDecoder cs = runDecoder ds := by
  rw [runDecoder, runDecoder,
      runDecoderFrom_eq cs [] (by simp), runDecoderFrom_eq ds [] (by simp),
      List.nil_append, List.nil_append, h]

/-- C5 witness: a two-frame stream cut whole versus cut mid-frame decodes to
the same events. -/
theorem c5_witness :
    runDecoder [str "data: \x7b\"type\":\"token\",\"data\":\"hi\"\x7d\ndata: \x7b\"type\":\"done\",\"data\":\"\"\x7d\n"] =
      runDecoder [str "data: \x7b\"ty", str "pe\":\"token\",\"data\":\"hi\"\x7d\nda",
                  str "ta: \x7b\"type\":\"done\",\"data\":\"\"\x7d\n"] :=
  c5_chunk_boundary_independent _ _ (by decide)

/-- C2: the claim asserts that a complete `data: ` line whose non-empty
remainder fails JSON parsing is surfaced as a kind=token event carrying the
raw text.  This is false: the code only logs `console.warn` and emits
nothing, so the line's text is lost.  Feeding the chunk `"data: hello\n"`
— prefix present, trimmed remainder `"hello"` non-empty and unparseable —
produces no event at all. -/
theorem c2_counterexample :
    (str "data: ").isPrefixOf (str "data: hello") ∧
    trimChars ((str "data: hello").drop 6) ≠ [] ∧
    jsonParseEvent (trimChars ((str "data: hello").drop 6)) = none ∧
    runDecoder [str "data: hello\n"] = [] := by
  decide

/-- C2 (amended): a complete `data: ` line whose trimmed remainder is
non-empty but fails structured parsing is dropped: the decoder emits no
event for it (only a console warning), never raises, and the line's text is
lost. -/
theorem c2_amended (line : Str)
    (hpre : (str "data: ").isPrefixOf line)
    (hne : trimChars (line.drop 6) ≠ [])
    (hparse : jsonParseEvent (trimChars (line.drop 6)) = none) :
    lineToEvents line = [] := by
  rw [lineToEvents, if_pos hpre]
  simp only [hparse, if_pos hne]

/-- C2 witness: the amended behaviour at the concrete line `data: hello`. -/
theorem c2_witness : lineToEvents (str "data: hello") = [] :=
  c2_amended _ (by decide) (by decide) (by decide)

/-- Helper: replacing the last element leaves every earlier position of the
list unchanged. -/
theorem updateLast_getElem? (msgs : List ChatMessage) (m x : ChatMessage)
    (hs : msgs.getLast? = some m) (i : Nat) (hi : i + 1 < msgs.length) :
    (msgs.dropLast ++ [x])[i]? = msgs[i]? := by
  have hlt : i < msgs.dropLast.length := by
    rw [List.length_dropLast]
    omega
  have heq : msgs.dropLast ++ [m] = msgs :=
    List.dropLast_append_getLast? m hs
  rw [List.getElem?_append, if_pos hlt]
  conv_rhs => rw [← heq]
  rw [List.getElem?_append, if_pos hlt]

/-- C9: both append mutators preserve the length of the message list, leave
every element other than the last unchanged, and return the list unchanged
whenever it is empty or its last message is not marked streaming. -/
theorem c9_append_frame (msgs : List ChatMessage) (tok : Str) :
    (ChatSvc.appendToStreamingMessage msgs tok).length = msgs.length ∧
    (ChatSvc.appendToStreamingThinking msgs tok).length = msgs.length ∧
    (∀ i, i + 1 < msgs.length →
      (ChatSvc.appendToStreamingMessage msgs tok)[i]? = msgs[i]? ∧
      (ChatSvc.appendToStreamingThinking msgs tok)[i]? = msgs[i]?) ∧
    (msgs.getLast? = none →
      ChatSvc.appendToStreamingMessage msgs tok = msgs ∧
      ChatSvc.appendToStreamingThinking msgs tok = msgs) ∧
    (∀ m, msgs.getLast? = some m → m.isStreaming = false →
      ChatSvc.appendToStreamingMessage msgs tok = msgs ∧
      ChatSvc.appendToStreamingThinking msgs tok = msgs) := by
  cases hs : msgs.getLast? with
  | none =>
    have hA : ChatSvc.appendToStreamingMessage msgs tok = msgs := by
      rw [ChatSvc.appendToStreamingMessage, hs]
    have hB : ChatSvc.appendToStreamingThinking msgs tok = msgs := by
      rw [ChatSvc.appendToStreamingThinking, hs]
    rw [hA, hB]
    exact ⟨rfl, rfl, fun i _ => ⟨rfl, rfl⟩, fun _ => ⟨rfl, rfl⟩,
           fun m hm => absurd hm (by simp)⟩
  | some m =>
    have hne : msgs ≠ [] := by
      intro hnil; subst hnil; simp at hs
    have hlen : ∀ x : ChatMessage, (msgs.dropLast ++ [x]).length = msgs.length := by
      intro x
      rw [List.length_append, List.length_dropLast, List.length_singleton]
      have : 0 < msgs.length := List.length_pos.mpr hne
      omega
    have hA : ChatSvc.appendToStreamingMessage msgs tok =
        if m.isStreaming then
          msgs.dropLast ++ [{ m with content := m.content ++ tok }] else msgs := by
      rw [ChatSvc.appendToStreamingMessage, hs]
    have hB : ChatSvc.appendToStreamingThinking msgs tok =
        if m.isStreaming then
          msgs.dropLast ++ [{ m with thinking := m.thinking ++ tok }] else msgs := by
      rw [ChatSvc.appendToStreamingThinking, hs]
    by_cases hstr : m.isStreaming
    · rw [hA, hB, if_pos hstr, if_pos hstr]
      refine ⟨hlen _, hlen _, ?_, ?_, ?_⟩
      · intro i hi
        exact ⟨updateLast_getElem? msgs m _ hs i hi,
               updateLast_getElem? msgs m _ hs i hi⟩
      · intro hnone
        exact absurd hnone (by simp)
      · intro m' hm' hstr'
        rw [Option.some_inj] at hm'
        subst hm'
        exact absurd hstr (by simp [hstr'])
    · rw [hA, hB, if_neg hstr, if_neg hstr]
      exact ⟨rfl, rfl, fun i _ => ⟨rfl, rfl⟩, fun _ => ⟨rfl, rfl⟩, fun _ _ _ => ⟨rfl, rfl⟩⟩

/-- Helper: the content-append mutator is the identity when the last message
is not streaming. -/
theorem appendMsg_id_of_lastClosed (msgs : List ChatMessage) (tok : Str)
    (h : ∀ m, msgs.getLast? = some m → m.isStreaming = false) :
    ChatSvc.appendToStreamingMessage msgs tok = msgs := by
  cases hs : msgs.getLast? with
  | none => rw [ChatSvc.appendToStreamingMessage, hs]
  | some m =>
    rw [ChatSvc.appendToStreamingMessage, hs]
    simp [h m hs]

/-- Helper: the thinking-append mutator is the identity when the last message
is not streaming. -/
theorem appendThink_id_of_lastClosed (msgs : List ChatMessage) (tok : Str)
    (h : ∀ m, msgs.getLast? = some m → m.isStreaming = false) :
    ChatSvc.appendToStreamingThinking msgs tok = msgs := by
  cases hs : msgs.getLast? with
  | none => rw [ChatSvc.appendToStreamingThinking, hs]
  | some m =>
    rw [ChatSvc.appendToStreamingThinking, hs]
    simp [h m hs]

/-- Helper: the thinking-state mutator is the identity when the last message
is not streaming. -/
theorem updateThink_id_of_lastClosed (msgs : List ChatMessage) (ip : Bool) (dur : Option Nat)
    (h : ∀ m, msgs.getLast? = some m → m.isStreaming = false) :
    ChatSvc.updateStreamingThinking msgs ip dur = msgs := by
  cases hs : msgs.getLast? with
  | none => rw [ChatSvc.updateStreamingThinking, hs]
  | some m =>
    rw [ChatSvc.updateStreamingThinking, hs]
    simp [h m hs]

/-- Helper: finalizing is the identity when the last message is not
streaming. -/
theorem finalize_id_of_lastClosed (msgs : List ChatMessage) (th : Option Str) (d : Option Nat)
    (h : ∀ m, msgs.getLast? = some m → m.isStreaming = false) :
    ChatSvc.finalizeStreamingMessage msgs th d = msgs := by
  cases hs : msgs.getLast? with
  | none => rw [ChatSvc.finalizeStreamingMessage, hs]
  | some m =>
    rw [ChatSvc.finalizeStreamingMessage, hs]
    simp [h m hs]

/-- Helper: after finalizing, the last message (if any) is closed. -/
theorem finalize_lastClosed (msgs : List ChatMessage) (th : Option Str) (d : Option Nat) :
    ∀ m, (ChatSvc.finalizeStreamingMessage msgs th d).getLast? = some m →
      m.isStreaming = false := by
  intro m hm
  cases hs : msgs.getLast? with
  | none =>
    rw [ChatSvc.finalizeStreamingMessage, hs, hs] at hm
    exact absurd hm (by simp)
  | some last =>
    by_cases hstr : last.isStreaming
    · rw [ChatSvc.finalizeStreamingMessage, hs] at hm
      simp only [hstr, if_true, List.getLast?_concat, Option.some_inj] at hm
      subst hm
      rfl
    · rw [ChatSvc.finalizeStreamingMessage, hs] at hm
      simp only [hstr, if_false, Bool.false_eq_true] at hm
      rw [hs, Option.some_inj] at hm
      subst hm
      exact Bool.eq_false_iff.mpr hstr

/-- C6 (amended): after a `done` event finalizes the in-flight message, the
mutators do not fail with any ClosedSession condition — no such condition
exists in the code.  The appends and the thinking-state update silently
return the list unchanged, and a second finalize is likewise a silent no-op.
(`attachGeneratedFile`, guarded only by the role, even still succeeds — see
the counterexample.) -/
theorem c6_amended (msgs : List ChatMessage) (th : Option Str) (d : Option Nat)
    (tok : Str) (ip : Bool) (dur : Option Nat) (th2 : Option Str) (d2 : Option Nat) :
    ChatSvc.appendToStreamingMessage (ChatSvc.finalizeStreamingMessage msgs th d) tok =
      ChatSvc.finalizeStreamingMessage msgs th d ∧
    ChatSvc.appendToStreamingThinking (ChatSvc.finalizeStreamingMessage msgs th d) tok =
      ChatSvc.finalizeStreamingMessage msgs th d ∧
    ChatSvc.updateStreamingThinking (ChatSvc.finalizeStreamingMessage msgs th d) ip dur =
      ChatSvc.finalizeStreamingMessage msgs th d ∧
    ChatSvc.finalizeStreamingMessage (ChatSvc.finalizeStreamingMessage msgs th d) th2 d2 =
      ChatSvc.finalizeStreamingMessage msgs th d :=
  ⟨appendMsg_id_of_lastClosed _ _ (finalize_lastClosed msgs th d),
   appendThink_id_of_lastClosed _ _ (finalize_lastClosed msgs th d),
   updateThink_id_of_lastClosed _ _ _ (finalize_lastClosed msgs th d),
   finalize_id_of_lastClosed _ _ _ (finalize_lastClosed msgs th d)⟩

/-- C6: the claim asserts every mutator called on a finalized message fails
with ClosedSession rather than succeeding or silently doing nothing.  This
is false: on a list whose last message is closed (`isStreaming = false`, the
state after `done`) the appends and the thinking update return the list
unchanged without any error, and `attachGeneratedFile` — guarded only by
`role === 'assistant'` — still succeeds in mutating the closed message. -/
theorem c6_counterexample :
    ChatSvc.appendToStreamingMessage
        [{ role := str "assistant", content := str "hi", timestamp := str "t" }] (str "x") =
      [{ role := str "assistant", content := str "hi", timestamp := str "t" }] ∧
    ChatSvc.appendToStreamingThinking
        [{ role := str "assistant", content := str "hi", timestamp := str "t" }] (str "x") =
      [{ role := str "assistant", content := str "hi", timestamp := str "t" }] ∧
    ChatSvc.updateStreamingThinking
        [{ role := str "assistant", content := str "hi", timestamp := str "t" }] true none =
      [{ role := str "assistant", content := str "hi", timestamp := str "t" }] ∧
    ChatCfg.attachGeneratedFile
        [{ role := str "assistant", content := str "hi", timestamp := str "t" }]
        [(str "file_id", str "f1")] =
      [{ role := str "assistant", content := str "hi", timestamp := str "t",
         generatedFile := some [(str "file_id", str "f1")] }] := by
  decide

/-- C9 witness: the frame conditions at a concrete two-message list with a
streaming tail. -/
theorem c9_witness :
    (ChatSvc.appendToStreamingMessage
        [{ role := str "user", content := str "q", timestamp := str "t0" },
         { role := str "assistant", content := str "a", timestamp := str "t1",
           isStreaming := true }] (str "x")).length = 2 ∧
    (ChatSvc.appendToStreamingMessage
        [{ role := str "user", content := str "q", timestamp := str "t0" },
         { role := str "assistant", content := str "a", timestamp := str "t1",
           isStreaming := true }] (str "x"))[0]? =
      some { role := str "user", content := str "q", timestamp := str "t0" } := by
  have h := c9_append_frame
    [{ role := str "user", content := str "q", timestamp := str "t0" },
     { role := str "assistant", content := str "a", timestamp := str "t1",
       isStreaming := true }] (str "x")
  refine ⟨h.1, ?_⟩
  have h0 := (h.2.2.1 0 (by decide)).1
  rw [h0]
  decide

/-- Helper: the defaulted last element is a member of the list. -/
theorem getLast_mem_of_some (msgs : List ChatMessage) (m : ChatMessage)
    (h : msgs.getLast? = some m) : m ∈ msgs := by
  have heq := List.dropLast_append_getLast? m h
  rw [← heq]
  exact List.mem_append_right _ (List.mem_singleton.mpr rfl)

/-- Helper: when no message is streaming, neither is the last one. -/
theorem lastClosed_of_noStreaming (msgs : List ChatMessage) (h : ∀ m ∈ msgs, m.isStreaming = false) :
    ∀ m, msgs.getLast? = some m → m.isStreaming = false :=
  fun m hm => h m (getLast_mem_of_some msgs m hm)

/-- Helper: the app.config content-append is the identity on a closed tail. -/
theorem cfgAppendMsg_id (msgs : List ChatMessage) (tok : Str)
    (h : ∀ m, msgs.getLast? = some m → m.isStreaming = false) :
    ChatCfg.appendToStreamingMessage msgs tok = msgs := by
  cases hs : msgs.getLast? with
  | none => rw [ChatCfg.appendToStreamingMessage, hs]
  | some m =>
    rw [ChatCfg.appendToStreamingMessage, hs]
    simp [h m hs]

/-- Helper: the app.config thinking-append is the identity on a closed tail. -/
theorem cfgAppendThink_id (msgs : List ChatMessage) (tok : Str)
    (h : ∀ m, msgs.getLast? = some m → m.isStreaming = false) :
    ChatCfg.appendToStreamingThinking msgs tok = msgs := by
  cases hs : msgs.getLast? with
  | none => rw [ChatCfg.appendToStreamingThinking, hs]
  | some m =>
    rw [ChatCfg.appendToStreamingThinking, hs]
    simp [h m hs]

/-- Helper: the app.config thinking-state update is the identity on a closed
tail. -/
theorem cfgUpdateThink_id (msgs : List ChatMessage) (ip : Bool)
    (h : ∀ m, msgs.getLast? = some m → m.isStreaming = false) :
    ChatCfg.updateStreamingThinking msgs ip = msgs := by
  cases hs : msgs.getLast? with
  | none => rw [ChatCfg.updateStreamingThinking, hs]
  | some m =>
    rw [ChatCfg.updateStreamingThinking, hs]
    simp [h m hs]

/-- Helper: the app.config thinking finalizer is the identity on a closed
tail. -/
theorem cfgFinalizeThink_id (msgs : List ChatMessage) (ft : Str) (dur : Nat)
    (h : ∀ m, msgs.getLast? = some m → m.isStreaming = false) :
    ChatCfg.finalizeStreamingThinking msgs ft dur = msgs := by
  cases hs : msgs.getLast? with
  | none => rw [ChatCfg.finalizeStreamingThinking, hs]
  | some m =>
    rw [ChatCfg.finalizeStreamingThinking, hs]
    simp [h m hs]

/-- Helper: the app.config remove is the identity on a closed tail. -/
theorem cfgRemove_id (msgs : List ChatMessage)
    (h : ∀ m, msgs.getLast? = some m → m.isStreaming = false) :
    ChatCfg.removeStreamingMessage msgs = msgs := by
  cases hs : msgs.getLast? with
  | none => rw [ChatCfg.removeStreamingMessage, hs]
  | some m =>
    rw [ChatCfg.removeStreamingMessage, hs]
    simp [h m hs]

/-- Helper: with a closed tail there is no current streaming message. -/
theorem cfgGetCurrent_none (msgs : List ChatMessage)
    (h : ∀ m, msgs.getLast? = some m → m.isStreaming = false) :
    ChatCfg.getCurrentStreamingMessage msgs = none := by
  cases hs : msgs.getLast? with
  | none => rw [ChatCfg.getCurrentStreamingMessage, hs]
  | some m =>
    rw [ChatCfg.getCurrentStreamingMessage, hs]
    simp [h m hs]

/-- Helper: part_009's finalizeMessage is skipped entirely when no streaming
message remains. -/
theorem finalizeMessageB_frozen (s : StreamB.SessionState)
    (hno : ∀ m ∈ s.messages, m.isStreaming = false) : StreamB.finalizeMessage s = s := by
  rw [StreamB.finalizeMessage,
      cfgGetCurrent_none s.messages (lastClosed_of_noStreaming _ hno)]

/-- Helper: once no message is streaming, any event other than
`file_generated` leaves the part_009 session's message list and finalize
count unchanged. -/
theorem handleB_frozen (now : Nat) (s : StreamB.SessionState) (ev : StreamEvent)
    (hno : ∀ m ∈ s.messages, m.isStreaming = false) (hev : ev.type ≠ str "file_generated") :
    (StreamB.handleStreamEvent now s ev).messages = s.messages ∧
    (StreamB.handleStreamEvent now s ev).finalizeCalls = s.finalizeCalls := by
  have hlast := lastClosed_of_noStreaming s.messages hno
  rw [StreamB.handleStreamEvent]
  by_cases h1 : ev.type = str "thinking_start"
  · rw [if_pos h1]
    exact ⟨cfgUpdateThink_id _ _ hlast, rfl⟩
  rw [if_neg h1]
  by_cases h2 : ev.type = str "thinking_token"
  · rw [if_pos h2]
    by_cases hg : s.isThinking ∧ ev.data ≠ []
    · rw [if_pos hg]
      exact ⟨cfgAppendThink_id _ _ hlast, rfl⟩
    · rw [if_neg hg]
      exact ⟨rfl, rfl⟩
  rw [if_neg h2]
  by_cases h3 : ev.type = str "thinking_end"
  · rw [if_pos h3]
    exact ⟨cfgFinalizeThink_id _ _ _ hlast, rfl⟩
  rw [if_neg h3]
  by_cases h4 : ev.type = str "token"
  · rw [if_pos h4]
    by_cases hg : ¬ s.isThinking ∧ ev.data ≠ []
    · rw [if_pos hg]
      by_cases hcl : cleanToken ev.data ≠ []
      · rw [if_pos hcl]
        exact ⟨cfgAppendMsg_id _ _ hlast, rfl⟩
      · rw [if_neg hcl]
        exact ⟨rfl, rfl⟩
    · rw [if_neg hg]
      exact ⟨rfl, rfl⟩
  rw [if_neg h4]
  rw [if_neg hev]
  by_cases h6 : ev.type = str "done"
  · rw [if_pos h6]
    rw [finalizeMessageB_frozen s hno]
    exact ⟨rfl, rfl⟩
  rw [if_neg h6]
  by_cases h7 : ev.type = str "error"
  · rw [if_pos h7]
    exact ⟨cfgRemove_id _ hlast, rfl⟩
  rw [if_neg h7]
  exact ⟨rfl, rfl⟩

/-- Helper: the frozen-state property extends over the whole remaining event
list. -/
theorem foldlB_frozen (now : Nat) (es : List StreamEvent) :
    ∀ s : StreamB.SessionState, (∀ m ∈ s.messages, m.isStreaming = false) →
      (∀ ev ∈ es, ev.type ≠ str "file_generated") →
      (es.foldl (StreamB.handleStreamEvent now) s).messages = s.messages ∧
      (es.foldl (StreamB.handleStreamEvent now) s).finalizeCalls = s.finalizeCalls := by
  induction es with
  | nil => exact fun s _ _ => ⟨rfl, rfl⟩
  | cons ev rest ih =>
    intro s hno hfg
    rw [List.foldl_cons]
    have hstep := handleB_frozen now s ev hno (hfg ev (List.mem_cons_self ev rest))
    have hno' : ∀ m ∈ (StreamB.handleStreamEvent now s ev).messages, m.isStreaming = false := by
      rw [hstep.1]; exact hno
    have hrest := ih (StreamB.handleStreamEvent now s ev) hno'
      (fun e he => hfg e (List.mem_cons_of_mem ev he))
    exact ⟨hrest.1.trans hstep.1, hrest.2.trans hstep.2⟩

/-- Helper: removing the streaming tail from a well-formed list (at most the
last message streams) leaves no streaming message. -/
theorem cfgRemove_noStreaming (msgs : List ChatMessage)
    (hwf : ∀ m ∈ msgs.dropLast, m.isStreaming = false) :
    ∀ m ∈ ChatCfg.removeStreamingMessage msgs, m.isStreaming = false := by
  cases hs : msgs.getLast? with
  | none =>
    rw [ChatCfg.removeStreamingMessage, hs]
    intro m hm
    cases msgs with
    | nil => exact absurd hm (by simp)
    | cons a t => simp at hs
  | some last =>
    by_cases hstr : last.isStreaming
    · rw [ChatCfg.removeStreamingMessage, hs]
      simp only [hstr, if_true]
      exact hwf
    · rw [ChatCfg.removeStreamingMessage, hs]
      simp only [hstr, if_false]
      intro m hm
      have heq := List.dropLast_append_getLast? last hs
      rw [← heq] at hm
      rcases List.mem_append.mp hm with hmem | hmem
      · exact hwf m hmem
      · rw [List.mem_singleton.mp hmem]
        exact Bool.eq_false_iff.mpr hstr

/-- C4 (amended): an error event immediately discards the streaming
placeholder, and from then on the part_009 session is observationally
terminated: no streaming message remains, every subsequent event other than
`file_generated` leaves the message list and the finalize count unchanged,
and the end-of-stream finalize step fires no finalize call (there is no
current streaming message).  The read loop itself is not broken at the error
event, and the src/src variant still invokes its finalize routine at end of
input — see the counterexample. -/
theorem c4_amended (now : Nat) (s0 : StreamB.SessionState) (d : Str)
    (es : List StreamEvent)
    (hwf : ∀ m ∈ s0.messages.dropLast, m.isStreaming = false)
    (hfg : ∀ ev ∈ es, ev.type ≠ str "file_generated") :
    (∀ m ∈ (StreamB.handleStreamEvent now s0 ⟨str "error", d⟩).messages, m.isStreaming = false) ∧
    (StreamB.runRest now (StreamB.handleStreamEvent now s0 ⟨str "error", d⟩) es).messages =
      (StreamB.handleStreamEvent now s0 ⟨str "error", d⟩).messages ∧
    (StreamB.runRest now (StreamB.handleStreamEvent now s0 ⟨str "error", d⟩) es).finalizeCalls =
      (StreamB.handleStreamEvent now s0 ⟨str "error", d⟩).finalizeCalls := by
  have herr : (StreamB.handleStreamEvent now s0 ⟨str "error", d⟩).messages =
      ChatCfg.removeStreamingMessage s0.messages := by
    rw [StreamB.handleStreamEvent]
    simp only [show ({ type := str "error", data := d } : StreamEvent).type = str "error" from rfl]
    rw [if_neg (by decide), if_neg (by decide), if_neg (by decide),
        if_neg (by decide), if_neg (by decide), if_neg (by decide), if_pos trivial]
  have hno : ∀ m ∈ (StreamB.handleStreamEvent now s0 ⟨str "error", d⟩).messages, m.isStreaming = false := by
    rw [herr]
    exact cfgRemove_noStreaming s0.messages hwf
  refine ⟨hno, ?_⟩
  have hfold := foldlB_frozen now es _ hno hfg
  have hnofold : ∀ m ∈ ((es.foldl (StreamB.handleStreamEvent now)
      (StreamB.handleStreamEvent now s0 ⟨str "error", d⟩))).messages, m.isStreaming = false := by
    rw [hfold.1]; exact hno
  rw [StreamB.runRest, finalizeMessageB_frozen _ hnofold]
  exact ⟨hfold.1, hfold.2⟩

/-- C4: the claim asserts the read loop stops at an error event, and that the
finalize callback (`finalizeStreamingMessage`) does not fire for that
session.  In the src/src variant this is false: the loop runs to end of
input and then invokes `chatService.finalizeStreamingMessage()`
unconditionally — on the stream `[token "partial", error "boom"]` the
finalize callback fires exactly once.  (The discard half of the claim holds:
the partial message is gone.) -/
theorem c4_counterexample :
    (StreamA.runSession
        ⟨[{ role := str "user", content := str "q", timestamp := str "t0" },
          { role := str "assistant", content := [], timestamp := str "t1",
            isStreaming := true }], 0⟩
        [⟨str "token", str "partial"⟩, ⟨str "error", str "boom"⟩]).finalizeCalls = 1 ∧
    (StreamA.runSession
        ⟨[{ role := str "user", content := str "q", timestamp := str "t0" },
          { role := str "assistant", content := [], timestamp := str "t1",
            isStreaming := true }], 0⟩
        [⟨str "token", str "partial"⟩, ⟨str "error", str "boom"⟩]).messages =
      [{ role := str "user", content := str "q", timestamp := str "t0" }] := by
  decide

/-- C3: the claim asserts that a token event received in the Reasoning phase
is treated as reasoning content and appended to reasoningText.  In the
part_009 variant this is false: with `isThinking` set, a token event leaves
the session state entirely unchanged — the payload is appended to neither
channel. -/
theorem c3_counterexample :
    StreamB.handleStreamEvent 1000
        ⟨[{ role := str "user", content := str "q", timestamp := str "t0" },
          { role := str "assistant", content := [], timestamp := str "t1",
            isStreaming := true, thinkingExpanded := true }],
         true, some 0, [], 0⟩
        ⟨str "token", str "Hel"⟩ =
      ⟨[{ role := str "user", content := str "q", timestamp := str "t0" },
        { role := str "assistant", content := [], timestamp := str "t1",
          isStreaming := true, thinkingExpanded := true }],
       true, some 0, [], 0⟩ := by
  decide

/-- C3 (amended): only the part_008 variant routes a token received during
Reasoning to the reasoning channel: the raw (unsanitized) payload is pushed
onto `currentThinking` and appended to the last streaming message's thinking
text, the answer content is untouched, and the phase stays Reasoning
(`isThinking` is unchanged by the record update).  The part_009 variant
drops such a token entirely — see the counterexample. -/
theorem c3_amended (now : Nat) (s : StreamC.SessionState) (d : Str) (m : ChatMessage)
    (hth : s.isThinking = true)
    (hlast : s.messages.getLast? = some m)
    (hstr : m.isStreaming = true) :
    StreamC.handleStreamEvent now s ⟨str "token", d⟩ =
      { s with
          currentThinking := s.currentThinking ++ [d],
          messages := s.messages.dropLast ++ [{ m with thinking := m.thinking ++ d }] } := by
  have happ : ChatSvc.appendToStreamingThinking s.messages d =
      s.messages.dropLast ++ [{ m with thinking := m.thinking ++ d }] := by
    rw [ChatSvc.appendToStreamingThinking, hlast]
    simp [hstr]
  rw [StreamC.handleStreamEvent]
  simp only [show ({ type := str "token", data := d } : StreamEvent).type = str "token" from rfl]
  rw [if_neg (by decide), if_neg (by decide), if_neg (by decide), if_pos trivial]
  rw [if_neg (by simp [hth]), happ]

/-- C10: a `thinking_token` event processed while the session is not in the
Reasoning phase (`isThinking` false) leaves the in-flight state of both the
part_009 and the part_008 handlers entirely unchanged: the payload is
appended to neither the reasoning nor the answer channel. -/
theorem c10_thinking_token_dropped (now : Nat) (sB : StreamB.SessionState) (sC : StreamC.SessionState) (d : Str)
    (hB : sB.isThinking = false) (hC : sC.isThinking = false) :
    StreamB.handleStreamEvent now sB ⟨str "thinking_token", d⟩ = sB ∧
    StreamC.handleStreamEvent now sC ⟨str "thinking_token", d⟩ = sC := by
  constructor
  · rw [StreamB.handleStreamEvent]
    simp only [show ({ type := str "thinking_token", data := d } : StreamEvent).type =
      str "thinking_token" from rfl]
    rw [if_neg (by decide), if_pos trivial, if_neg (by simp [hB])]
  · rw [StreamC.handleStreamEvent]
    simp only [show ({ type := str "thinking_token", data := d } : StreamEvent).type =
      str "thinking_token" from rfl]
    rw [if_neg (by decide), if_pos trivial, if_neg (by simp [hC])]

/-- C7: the claim asserts that starting while a session is open fails
synchronously with SessionBusy and performs no state change.  This is false:
with a controller already held, `sendStreamingMessage` first cancels the
existing stream — signalling its abort controller (count rises to 1) — then
installs a fresh controller and appends the user message and the streaming
placeholder (two new messages). -/
theorem c7_counterexample :
    (StreamB.sendStreamingMessageStart ⟨true, 0, true, some 5, [str "x"]⟩ []
        (str "hi") (str "t")).1.abortCount = 1 ∧
    (StreamB.sendStreamingMessageStart ⟨true, 0, true, some 5, [str "x"]⟩ []
        (str "hi") (str "t")).1.abortController = true ∧
    (StreamB.sendStreamingMessageStart ⟨true, 0, true, some 5, [str "x"]⟩ []
        (str "hi") (str "t")).2.length = 2 := by
  decide

/-- C7 (amended): `sendStreamingMessage` never fails with SessionBusy.  It
cancels any open session (signalling that session's abort controller exactly
once, and not at all when none is open), installs a fresh controller, resets
the thinking state, and appends the user message plus a new streaming
placeholder. -/
theorem c7_amended (c : StreamB.ControllerState) (msgs : List ChatMessage)
    (content now : Str) :
    (StreamB.sendStreamingMessageStart c msgs content now).1.abortController = true ∧
    (c.abortController = true →
      (StreamB.sendStreamingMessageStart c msgs content now).1.abortCount = c.abortCount + 1) ∧
    (c.abortController = false →
      (StreamB.sendStreamingMessageStart c msgs content now).1.abortCount = c.abortCount) ∧
    (StreamB.sendStreamingMessageStart c msgs content now).1.isThinking = false ∧
    (StreamB.sendStreamingMessageStart c msgs content now).2 =
      ChatCfg.createStreamingMessage (ChatCfg.addUserMessage msgs content now) now := by
  by_cases h : c.abortController = true <;>
    simp [StreamB.sendStreamingMessageStart, StreamB.cancelStream, h]

/-- C7 witness: the amended start behaviour at a concrete busy controller. -/
theorem c7_witness :
    (StreamB.sendStreamingMessageStart ⟨true, 0, false, none, []⟩ []
        (str "hi") (str "t")).1.abortController = true ∧
    (StreamB.sendStreamingMessageStart ⟨true, 0, false, none, []⟩ []
        (str "hi") (str "t")).1.abortCount = 0 + 1 := by
  have h := c7_amended ⟨true, 0, false, none, []⟩ [] (str "hi") (str "t")
  exact ⟨h.1, h.2.1 rfl⟩

/-- C8: cancellation is idempotent in both variants.  A second
`abort`/`cancelStream` call equals the first's result, cancelling after the
`finally` clause of natural completion is a no-op, and any call that
observes a null abort controller returns the state unchanged. -/
theorem c8_cancel_idempotent (a : StreamA.ControllerState) (c : StreamB.ControllerState) :
    StreamA.abort (StreamA.abort a) = StreamA.abort a ∧
    StreamA.abort (StreamA.sessionFinally a) = StreamA.sessionFinally a ∧
    (a.abortController = false → StreamA.abort a = a) ∧
    StreamB.cancelStream (StreamB.cancelStream c) = StreamB.cancelStream c ∧
    StreamB.cancelStream (StreamB.sessionFinally c) = StreamB.sessionFinally c ∧
    (c.abortController = false → StreamB.cancelStream c = c) := by
  refine ⟨?_, ?_, ?_, ?_, ?_, ?_⟩
  · by_cases h : a.abortController = true <;>
      simp [StreamA.abort, h]
  · simp [StreamA.abort, StreamA.sessionFinally]
  · intro h
    simp [StreamA.abort, h]
  · by_cases h : c.abortController = true <;>
      simp [StreamB.cancelStream, h]
  · simp [StreamB.cancelStream, StreamB.sessionFinally]
  · intro h
    simp [StreamB.cancelStream, h]

/-- C8 witness: idempotence at a held controller and a no-op cancel at a
null controller. -/
theorem c8_witness :
    StreamA.abort (StreamA.abort ⟨true, 0⟩) = StreamA.abort ⟨true, 0⟩ ∧
    StreamB.cancelStream ⟨false, 3, false, none, []⟩ = ⟨false, 3, false, none, []⟩ := by
  have h := c8_cancel_idempotent ⟨true, 0⟩ ⟨false, 3, false, none, []⟩
  exact ⟨h.1, h.2.2.2.2.2 rfl⟩

/-- C3 witness: the amended part_008 routing at a concrete thinking state. -/
theorem c3_witness :
    StreamC.handleStreamEvent 5
        ⟨[{ role := str "assistant", content := [], timestamp := str "t",
            isStreaming := true }], true, 3, []⟩ ⟨str "token", str "x"⟩ =
      { (⟨[{ role := str "assistant", content := [], timestamp := str "t",
             isStreaming := true }], true, 3, []⟩ : StreamC.SessionState) with
          currentThinking := ([] : List Str) ++ [str "x"],
          messages :=
            ([{ role := str "assistant", content := [], timestamp := str "t",
                isStreaming := true }] : List ChatMessage).dropLast ++
              [{ ({ role := str "assistant", content := [], timestamp := str "t",
                    isStreaming := true } : ChatMessage) with
                   thinking := ([] : Str) ++ str "x" }] } :=
  c3_amended 5 _ (str "x") _ rfl (by decide) rfl

/-- C10 witness: the drop at concrete non-thinking states of both variants. -/
theorem c10_witness :
    StreamB.handleStreamEvent 0 ⟨[], false, none, [], 0⟩
        ⟨str "thinking_token", str "zzz"⟩ = ⟨[], false, none, [], 0⟩ ∧
    StreamC.handleStreamEvent 0 ⟨[], false, 0, []⟩
        ⟨str "thinking_token", str "zzz"⟩ = ⟨[], false, 0, []⟩ :=
  c10_thinking_token_dropped 0 ⟨[], false, none, [], 0⟩ ⟨[], false, 0, []⟩
    (str "zzz") rfl rfl

/-- C4 witness: the amended post-error freeze at a concrete session. -/
theorem c4_witness :
    (StreamB.runRest 7
        (StreamB.handleStreamEvent 7
          ⟨[{ role := str "user", content := str "q", timestamp := str "t0" },
            { role := str "assistant", content := [], timestamp := str "t1",
              isStreaming := true }], false, none, [], 0⟩
          ⟨str "error", str "boom"⟩)
        [⟨str "token", str "x"⟩]).finalizeCalls =
      (StreamB.handleStreamEvent 7
        ⟨[{ role := str "user", content := str "q", timestamp := str "t0" },
          { role := str "assistant", content := [], timestamp := str "t1",
            isStreaming := true }], false, none, [], 0⟩
        ⟨str "error", str "boom"⟩).finalizeCalls :=
  (c4_amended 7
    ⟨[{ role := str "user", content := str "q", timestamp := str "t0" },
      { role := str "assistant", content := [], timestamp := str "t1",
        isStreaming := true }], false, none, [], 0⟩
    (str "boom") [⟨str "token", str "x"⟩] (by decide) (by decide)).2.2
